import Mathlib

/-!
Verification of the request router in `kraken/site.py` (the `Site` class).

The embedding models the router's pure dispatch logic.  Filesystem state,
the template-engine registry and the (externally supplied) handler and
rendering behaviour are packaged in an `Env` record of pure functions;
the per-`Site` module cache is threaded explicitly.  Python dictionaries
become association lists, Python module namespaces become `Namespace`,
and the dispatch outcome records which handler was invoked with which
arguments rather than opaque response bytes.
-/

set_option autoImplicit false

namespace Kraken

/-! ### String utilities modelling the Python primitives used by `site.py` -/

/-- Python `s.split(u'/')` on the character list of `s`:
splitting on every `'/'`, keeping empty fields. -/
def splitSlash : List Char → List String
  | [] => [""]
  | c :: rest =>
    let r := splitSlash rest
    if c = '/' then "" :: r
    else
      match r with
      | [] => [String.mk [c]]
      | s :: ss => String.mk (c :: s.data) :: ss

/-- Python `s.strip(u'/')`: remove every leading and trailing `'/'`. -/
def stripSlashes (s : String) : String :=
  String.mk (((s.data.dropWhile (· = '/')).reverse.dropWhile (· = '/')).reverse)

/-- Python `sep.join(parts)`. -/
def joinWith (sep : String) : List String → String
  | [] => ""
  | [s] => s
  | s :: rest => s ++ sep ++ joinWith sep rest

/-- Python `needle in haystack` (substring containment) on character lists. -/
def isInfixL (n : List Char) : List Char → Bool
  | [] => n.isEmpty
  | c :: rest => n.isPrefixOf (c :: rest) || isInfixL n rest

/-- Python `needle in haystack` on strings, as used by `u'/__' in request.path`. -/
def pyContains (needle hay : String) : Bool :=
  isInfixL needle.data hay.data

/-- `os.path.join(root, *parts)` for parts that contain no separator
(they come from splitting on `'/'`). -/
def pathJoin (root : String) : List String → String
  | [] => root
  | p :: rest => pathJoin (root ++ "/" ++ p) rest

/-- The list comprehension appearing at `site.py` lines 67-69, 101-102, 140
and 188-189: `[part for part in s.split(u'/') if part and part != u'..']`. -/
def cleanParts (s : String) : List String :=
  (splitSlash s.data).filter (fun p => p != "" && p != "..")

/-! ### Data model -/

/-- A value bound in a loaded module's namespace.  The dispatcher only ever
inspects the binding `'handle_request'` (a function, carrying its declared
parameter count and an opaque identity) and the seeded `'__name__'` string. -/
inductive PyVal where
  | str (s : String)
  | fn (argCount : Nat) (fid : Nat)
  deriving DecidableEq

/-- A module's symbol table (`execfile` target dictionary). -/
abbrev Namespace := List (String × PyVal)

/-- Dictionary lookup, `ns[k]` / `k in ns`. -/
def lookupNs (ns : Namespace) (k : String) : Option PyVal :=
  List.lookup k ns

/-- `Site._module_cache`: absolute filename → (namespace, mtime). -/
abbrev Cache := String → Option (Namespace × Nat)

/-- The werkzeug exception family caught at the WSGI boundary
(`except HTTPException`); `NotFound` is the subclass used for control flow. -/
inductive HTTPExc where
  | notFound
  | other (code : Nat)
  deriving DecidableEq

/-- The handler invocation decided by `handle_python`: either
`handler(request)` (one declared parameter) or `handler(request, remainder)`. -/
inductive Call where
  | call1 (h : PyVal)
  | call2 (h : PyVal) (remainder : String)
  deriving DecidableEq

/-- Responses produced by the three resolvers (contents are opaque). -/
inductive Response where
  | staticFile (filename : String)
  | page (content : Nat) (mimetype : Option String)
  | fromHandler (r : Nat)
  | exc (e : HTTPExc)
  deriving DecidableEq

/-- Which resolver ran (instrumentation of the embedding; carries no
semantic weight). -/
inductive Resolver where
  | static
  | template
  | python
  deriving DecidableEq

/-- Modelled from the spec: `kraken.utils.arg_count` (the `kraken/utils.py`
helper is not among the provided sources) introspects a callable's declared
parameter count; a handler value carries that count directly. -/
def arg_count : PyVal → Nat
  | .fn c _ => c
  | .str _ => 0

/-- The ambient world of one `Site`: the site root, a pure snapshot of the
filesystem, the koral engine registry, and the behaviour of external
collaborators (module execution, handler invocation, template rendering,
MIME guessing). -/
structure Env where
  root : String
  isFile : String → Bool
  isDir : String → Bool
  listdir : String → List String
  mtime : String → Nat
  exec : String → Namespace → Namespace
  engines : List String
  invoke : Call → Except HTTPExc Response
  render : String → String → Except HTTPExc Nat
  guessType : String → Option String

/-! ### `Site.load_python_module` (site.py lines 134-155) -/

/-- The filename `load_python_module` resolves a slash-separated module
name to: `os.path.join(self.site_root, *parts) + u'.py'`. -/
def moduleFilename (root : String) (name : String) : String :=
  pathJoin root (cleanParts name) ++ ".py"

/-- The synthetic qualified name seeding a fresh module namespace:
`'kraken.site.' + '.'.join(parts)`. -/
def module_qualname (parts : List String) : String :=
  "kraken.site." ++ joinWith "." parts

/-- Result of one `load_python_module` call: the returned symbol table, the
cache afterwards, the filename whose existence was checked (`attempted`),
and, when `execfile` ran, the executed filename with its initial namespace. -/
structure LoadResult where
  ns : Namespace
  cache : Cache
  attempted : String
  execd : Option (String × Namespace)

/-- The reload path of `load_python_module` (lines 152-155): execute the
file in a fresh namespace seeded with the qualified name and replace the
cache entry wholesale. -/
def reload_module (env : Env) (cache : Cache) (filename : String)
    (parts : List String) : LoadResult :=
  let init : Namespace := [("__name__", PyVal.str (module_qualname parts))]
  let ns := env.exec filename init
  ⟨ns, fun k => if k = filename then some (ns, env.mtime filename) else cache k,
   filename, some (filename, init)⟩

/-- `Site.load_python_module` (lines 134-155): strip empty and `..` parts,
resolve to `<root>/<parts>.py`; missing file yields an empty dictionary;
a cache entry with matching mtime is returned as is; otherwise the file is
executed afresh and cached. -/
def load_python_module (env : Env) (cache : Cache) (name : String) : LoadResult :=
  let parts := cleanParts name
  let filename := pathJoin env.root parts ++ ".py"
  if env.isFile filename then
    match cache filename with
    | some (m, old) =>
      if env.mtime filename = old then ⟨m, cache, filename, none⟩
      else reload_module env cache filename parts
    | none => reload_module env cache filename parts
  else ⟨[], cache, filename, none⟩

/-! ### `Site.handle_python` (site.py lines 75-116) -/

/-- Load-accounting state threaded through `handle_python`: the module
cache plus the log of filenames whose existence was checked (`attempts`)
and of `execfile` events (`execs`). -/
structure Loads where
  cache : Cache
  attempts : List String
  execs : List (String × Namespace)

/-- One `self.load_python_module(...)` call inside `handle_python`,
recording the attempt and any execution. -/
def doLoad (env : Env) (st : Loads) (name : String) : Namespace × Loads :=
  let r := load_python_module env st.cache name
  (r.ns, ⟨r.cache, st.attempts ++ [r.attempted], st.execs ++ r.execd.toList⟩)

/-- The first loop of `handle_python` (lines 92-98): for each suffix try
`<path stripped of slashes><suffix>`; a `handle_request` with declared
parameter count exactly 1 is called with the request alone. -/
def strategyA_go (env : Env) (st : Loads) (base : String) :
    List String → Option Call × Loads
  | [] => (none, st)
  | sfx :: rest =>
    let (m, st') := doLoad env st (base ++ sfx)
    match lookupNs m "handle_request" with
    | some h =>
      if arg_count h = 1 then (some (.call1 h), st')
      else strategyA_go env st' base rest
    | none => strategyA_go env st' base rest

/-- The inner `for suffix in (u'', u'/index')` loop of the second strategy
(lines 105-111): a `handle_request` with more than one declared parameter
is called with the request and the slash-joined remainder. -/
def strategyB_inner (env : Env) (st : Loads) (scriptName pathInfo : List String) :
    List String → Option Call × Loads
  | [] => (none, st)
  | sfx :: rest =>
    let (m, st') := doLoad env st (joinWith "/" scriptName ++ sfx)
    match lookupNs m "handle_request" with
    | some h =>
      if arg_count h > 1 then (some (.call2 h (joinWith "/" pathInfo)), st')
      else strategyB_inner env st' scriptName pathInfo rest
    | none => strategyB_inner env st' scriptName pathInfo rest

/-- The `while script_name:` loop of `handle_python` (lines 104-114).
The shrinking prefix is carried in reversed form (`revScript`, so that
`script_name.pop()` is its head and the recursion is structural);
the actual `script_name` list is `revScript.reverse`. -/
def strategyB (env : Env) (st : Loads) :
    List String → List String → Option Call × Loads
  | [], _ => (none, st)
  | seg :: restRev, pathInfo =>
    let (r, st') :=
      strategyB_inner env st ((seg :: restRev).reverse) pathInfo ["", "/index"]
    match r with
    | some c => (some c, st')
    | none => strategyB env st' restRev (seg :: pathInfo)

/-- `Site.handle_python` (lines 75-116): exact-path strategy first, then
the shrinking-prefix strategy, otherwise `NotFound`.  The result is the
handler invocation decided on (the caller performs the invocation). -/
def handle_python (env : Env) (cache : Cache) (path : String) :
    Except HTTPExc Call × Loads :=
  let st0 : Loads := ⟨cache, [], []⟩
  let (r, st1) := strategyA_go env st0 (stripSlashes path) ["", "/index"]
  match r with
  | some c => (.ok c, st1)
  | none =>
    let (r2, st2) := strategyB env st1 ((cleanParts path).reverse) []
    match r2 with
    | some c => (.ok c, st2)
    | none => (.error .notFound, st2)

/-! ### `Site.handle_static_file` (site.py lines 61-73) -/

/-- `Site.handle_static_file`: the request path, stripped of empty and `..`
segments, is a filename relative to the site root; missing file raises
`NotFound`. -/
def handle_static_file (env : Env) (path : String) : Except HTTPExc Response :=
  let filename := pathJoin env.root (cleanParts path)
  if env.isFile filename then .ok (.staticFile filename)
  else .error .notFound

/-! ### `Site.find_template` (site.py lines 157-210) -/

/-- All decompositions `cs = a ++ '.' :: b`, in left-to-right order of the
splitting dot. -/
def dotSplits : List Char → List (List Char × List Char)
  | [] => []
  | c :: rest =>
    (if c = '.' then [([], rest)] else []) ++
      (dotSplits rest).map (fun p => (c :: p.1, p.2))

/-- The engine alternation `(e1|e2|...)$` of the suffix regular expression:
the first registered engine that matches the tail exactly (Python's `$`
also accepts one trailing newline).  Returns the engine name captured. -/
def engineOf (engines : List String) (b : List Char) : Option String :=
  engines.find? (fun e => b == e.data || b == e.data ++ ['\n'])

/-- `re.match` of the pattern `<pre>\.(.+)\.(<engines>)$` against `name`
(site.py lines 191-194 and 207): the literal prefix, a dot, a greedy
non-empty newline-free type group, a dot, and a registered engine name at
the end.  Greediness picks the decomposition with the longest type group.
Returns `(type, engine)` capture groups. -/
def suffixMatch (engines : List String) (pre : String) (name : String) :
    Option (String × String) :=
  let pd := (pre ++ ".").data
  if pd.isPrefixOf name.data then
    ((dotSplits (name.data.drop pd.length)).reverse.filterMap (fun p =>
        if p.1 ≠ [] ∧ ¬ p.1.contains '\n' then
          (engineOf engines p.2).map (fun e => (String.mk p.1, e))
        else none)).head?
  else none

/-- One entry of the `searches` loop of `find_template` (lines 203-210):
if the directory exists, scan its listing in order and return the first
entry matching the pattern, as `(dir-relative template name, type, engine)`. -/
def search_dir (env : Env) (dirParts : List String) (pre : String) :
    Option (String × String × String) :=
  let dirname := pathJoin env.root dirParts
  if env.isDir dirname then
    ((env.listdir dirname).filterMap (fun name =>
        (suffixMatch env.engines pre name).map (fun p =>
          (joinWith "/" (dirParts ++ [name]), p.1, p.2)))).head?
  else none

/-- `Site.find_template` (lines 157-210): first search the directory named
by all path segments for `index.<type>.<engine>`; if that fails and the
path has at least one segment, search the parent directory for
`<last segment>.<type>.<engine>`. -/
def find_template (env : Env) (path : String) : Option (String × String × String) :=
  let parts := cleanParts path
  match search_dir env parts "index" with
  | some r => some r
  | none =>
    if parts.isEmpty then none
    else search_dir env parts.dropLast (parts.getLastD "")

/-! ### `Site.handle_simple_template` (site.py lines 118-132) and
`Site.__call__` (lines 45-59) -/

/-- `Site.handle_simple_template`: no template raises `NotFound`; otherwise
the engine renders it (rendering may itself raise an HTTP exception) and
the response carries the guessed MIME type of `'_.' + extension`. -/
def handle_simple_template (env : Env) (path : String) : Except HTTPExc Response :=
  match find_template env path with
  | none => .error .notFound
  | some (tname, ext, engine) =>
    match env.render engine tname with
    | .ok content => .ok (.page content (env.guessType ("_." ++ ext)))
    | .error e => .error e

/-- The body of `Site.__call__` inside the outer `try` (lines 50-56): a
path containing `u'/__'` goes to the static resolver alone; otherwise the
template resolver runs and exactly a `NotFound` from it falls through to
the python resolver.  Also returns the load state and the list of
resolvers that ran. -/
def call_body (env : Env) (cache : Cache) (path : String) :
    Except HTTPExc Response × Loads × List Resolver :=
  if pyContains "/__" path then
    (handle_static_file env path, ⟨cache, [], []⟩, [.static])
  else
    match handle_simple_template env path with
    | .ok r => (.ok r, ⟨cache, [], []⟩, [.template])
    | .error .notFound =>
      let (r, st) := handle_python env cache path
      (match r with
       | .ok c => env.invoke c
       | .error e => .error e, st, [.template, .python])
    | .error e => (.error e, ⟨cache, [], []⟩, [.template])

/-- Result of `Site.__call__`: the response, the load state and the
resolver trace. -/
structure CallResult where
  resp : Response
  loads : Loads
  tried : List Resolver

/-- `Site.__call__` (lines 45-59): run the dispatch body; any escaping
HTTP exception is caught at the boundary and returned as the response
(`e` is itself a WSGI application). -/
def site_call (env : Env) (cache : Cache) (path : String) : CallResult :=
  match call_body env cache path with
  | (.ok r, st, tr) => ⟨r, st, tr⟩
  | (.error e, st, tr) => ⟨.exc e, st, tr⟩

/-! ### Helper lemmas -/

/-- The characters `pathJoin` appends after the root: `'/' ++ part` for
each part. -/
def relData : List String → List Char
  | [] => []
  | p :: rest => '/' :: p.data ++ relData rest

theorem pathJoin_data (parts : List String) (root : String) :
    (pathJoin root parts).data = root.data ++ relData parts := by
  induction parts generalizing root with
  | nil => simp [pathJoin, relData]
  | cons p rest ih =>
    simp [pathJoin, relData, ih (root ++ "/" ++ p), String.data_append,
      List.append_assoc]

theorem moduleFilename_data (root name : String) :
    (moduleFilename root name).data =
      root.data ++ (relData (cleanParts name) ++ ".py".data) := by
  simp [moduleFilename, String.data_append, pathJoin_data, List.append_assoc]

/-- Two module names with different cleaned segment lists resolve to
different filenames under the same root. -/
theorem moduleFilename_ne (root : String) (n₁ n₂ : String)
    (h : relData (cleanParts n₁) ++ ".py".data ≠ relData (cleanParts n₂) ++ ".py".data) :
    moduleFilename root n₁ ≠ moduleFilename root n₂ := by
  intro heq
  apply h
  have := congrArg String.data heq
  rw [moduleFilename_data, moduleFilename_data] at this
  exact List.append_cancel_left this

/-- `load_python_module` when the file is missing (site.py lines 142-143). -/
theorem load_eq_of_not_file (env : Env) (c : Cache) (name : String)
    (h : env.isFile (moduleFilename env.root name) = false) :
    load_python_module env c name = ⟨[], c, moduleFilename env.root name, none⟩ := by
  simp [load_python_module, moduleFilename] at *
  simp [h]

/-- `load_python_module` on a cache hit with matching mtime (lines 145-148). -/
theorem load_eq_hit (env : Env) (c : Cache) (name : String) (m : Namespace) (t : Nat)
    (hf : env.isFile (moduleFilename env.root name) = true)
    (hc : c (moduleFilename env.root name) = some (m, t))
    (hm : env.mtime (moduleFilename env.root name) = t) :
    load_python_module env c name = ⟨m, c, moduleFilename env.root name, none⟩ := by
  simp [moduleFilename] at hf hc hm
  simp [load_python_module, moduleFilename, hf, hc, hm]

/-- `load_python_module` on a cache miss (lines 149-155). -/
theorem load_eq_reload_none (env : Env) (c : Cache) (name : String)
    (hf : env.isFile (moduleFilename env.root name) = true)
    (hc : c (moduleFilename env.root name) = none) :
    load_python_module env c name =
      reload_module env c (moduleFilename env.root name) (cleanParts name) := by
  simp [moduleFilename] at hf hc
  simp [load_python_module, moduleFilename, hf, hc]

/-- `load_python_module` on a stale cache entry (lines 147, 152-155). -/
theorem load_eq_reload_stale (env : Env) (c : Cache) (name : String)
    (m : Namespace) (t : Nat)
    (hf : env.isFile (moduleFilename env.root name) = true)
    (hc : c (moduleFilename env.root name) = some (m, t))
    (hm : env.mtime (moduleFilename env.root name) ≠ t) :
    load_python_module env c name =
      reload_module env c (moduleFilename env.root name) (cleanParts name) := by
  simp [moduleFilename] at hf hc hm
  simp [load_python_module, moduleFilename, hf, hc, hm]

/-- A cache write only touches the loaded module's own filename. -/
theorem load_cache_other (env : Env) (c : Cache) (name k : String)
    (h : k ≠ moduleFilename env.root name) :
    (load_python_module env c name).cache k = c k := by
  by_cases hf : env.isFile (moduleFilename env.root name) = true
  · cases hc : c (moduleFilename env.root name) with
    | none =>
      rw [load_eq_reload_none env c name hf hc]
      simp [reload_module, h]
    | some p =>
      obtain ⟨m, t⟩ := p
      by_cases hm : env.mtime (moduleFilename env.root name) = t
      · rw [load_eq_hit env c name m t hf hc hm]
      · rw [load_eq_reload_stale env c name m t hf hc hm]
        simp [reload_module, h]
  · rw [load_eq_of_not_file env c name (by simpa using hf)]

/-- Loading a module from any cache that agrees with the just-updated cache
on the module's filename is a no-op: it returns the same namespace, leaves
the cache alone and executes nothing. -/
theorem load_stable (env : Env) (c c' : Cache) (name : String)
    (h : c' (moduleFilename env.root name) =
      (load_python_module env c name).cache (moduleFilename env.root name)) :
    load_python_module env c' name =
      ⟨(load_python_module env c name).ns, c', moduleFilename env.root name, none⟩ := by
  by_cases hf : env.isFile (moduleFilename env.root name) = true
  · cases hc : c (moduleFilename env.root name) with
    | none =>
      rw [load_eq_reload_none env c name hf hc] at h ⊢
      simp only [reload_module, if_pos rfl] at h
      exact load_eq_hit env c' name _ _ hf h rfl
    | some p =>
      obtain ⟨m, t⟩ := p
      by_cases hm : env.mtime (moduleFilename env.root name) = t
      · rw [load_eq_hit env c name m t hf hc hm] at h ⊢
        exact load_eq_hit env c' name m t hf (h.trans hc) hm
      · rw [load_eq_reload_stale env c name m t hf hc hm] at h ⊢
        simp only [reload_module, if_pos rfl] at h
        exact load_eq_hit env c' name _ _ hf h rfl
  · have hf' : env.isFile (moduleFilename env.root name) = false := by simpa using hf
    rw [load_eq_of_not_file env c name hf'] at h ⊢
    exact load_eq_of_not_file env c' name hf'

/-- `strategyA_go` only appends to the execution log. -/
theorem strategyA_go_execs (env : Env) (base : String) (sfxs : List String)
    (st : Loads) :
    ∃ t, (strategyA_go env st base sfxs).2.execs = st.execs ++ t := by
  induction sfxs generalizing st with
  | nil => exact ⟨[], by simp [strategyA_go]⟩
  | cons sfx rest ih =>
    cases hL : lookupNs (load_python_module env st.cache (base ++ sfx)).ns
        "handle_request" with
    | none =>
      obtain ⟨t, ht⟩ := ih ⟨(load_python_module env st.cache (base ++ sfx)).cache,
        st.attempts ++ [(load_python_module env st.cache (base ++ sfx)).attempted],
        st.execs ++ (load_python_module env st.cache (base ++ sfx)).execd.toList⟩
      refine ⟨(load_python_module env st.cache (base ++ sfx)).execd.toList ++ t, ?_⟩
      simp only [strategyA_go, doLoad, hL]
      rw [ht]
      simp
    | some h =>
      by_cases ha : arg_count h = 1
      · refine ⟨(load_python_module env st.cache (base ++ sfx)).execd.toList, ?_⟩
        simp only [strategyA_go, doLoad, hL]
        rw [if_pos ha]
      · obtain ⟨t, ht⟩ := ih ⟨(load_python_module env st.cache (base ++ sfx)).cache,
          st.attempts ++ [(load_python_module env st.cache (base ++ sfx)).attempted],
          st.execs ++ (load_python_module env st.cache (base ++ sfx)).execd.toList⟩
        refine ⟨(load_python_module env st.cache (base ++ sfx)).execd.toList ++ t, ?_⟩
        simp only [strategyA_go, doLoad, hL]
        rw [if_neg ha, ht]
        simp

/-- `strategyB_inner` only appends to the execution log. -/
theorem strategyB_inner_execs (env : Env) (scriptName pathInfo : List String)
    (sfxs : List String) (st : Loads) :
    ∃ t, (strategyB_inner env st scriptName pathInfo sfxs).2.execs = st.execs ++ t := by
  induction sfxs generalizing st with
  | nil => exact ⟨[], by simp [strategyB_inner]⟩
  | cons sfx rest ih =>
    cases hL : lookupNs
        (load_python_module env st.cache (joinWith "/" scriptName ++ sfx)).ns
        "handle_request" with
    | none =>
      obtain ⟨t, ht⟩ := ih
        ⟨(load_python_module env st.cache (joinWith "/" scriptName ++ sfx)).cache,
         st.attempts ++ [(load_python_module env st.cache (joinWith "/" scriptName ++ sfx)).attempted],
         st.execs ++ (load_python_module env st.cache (joinWith "/" scriptName ++ sfx)).execd.toList⟩
      refine ⟨(load_python_module env st.cache (joinWith "/" scriptName ++ sfx)).execd.toList ++ t, ?_⟩
      simp only [strategyB_inner, doLoad, hL]
      rw [ht]
      simp
    | some h =>
      by_cases ha : arg_count h > 1
      · refine ⟨(load_python_module env st.cache (joinWith "/" scriptName ++ sfx)).execd.toList, ?_⟩
        simp only [strategyB_inner, doLoad, hL]
        rw [if_pos ha]
      · obtain ⟨t, ht⟩ := ih
          ⟨(load_python_module env st.cache (joinWith "/" scriptName ++ sfx)).cache,
           st.attempts ++ [(load_python_module env st.cache (joinWith "/" scriptName ++ sfx)).attempted],
           st.execs ++ (load_python_module env st.cache (joinWith "/" scriptName ++ sfx)).execd.toList⟩
        refine ⟨(load_python_module env st.cache (joinWith "/" scriptName ++ sfx)).execd.toList ++ t, ?_⟩
        simp only [strategyB_inner, doLoad, hL]
        rw [if_neg ha, ht]
        simp

/-- `strategyB` only appends to the execution log. -/
theorem strategyB_execs (env : Env) (revScript pathInfo : List String)
    (st : Loads) :
    ∃ t, (strategyB env st revScript pathInfo).2.execs = st.execs ++ t := by
  induction revScript generalizing st pathInfo with
  | nil => exact ⟨[], by simp [strategyB]⟩
  | cons seg restRev ih =>
    obtain ⟨t₁, ht₁⟩ :=
      strategyB_inner_execs env ((seg :: restRev).reverse) pathInfo ["", "/index"] st
    rcases hI : strategyB_inner env st ((seg :: restRev).reverse) pathInfo
        ["", "/index"] with ⟨r, st'⟩
    have hst' : st'.execs = st.execs ++ t₁ := by rw [hI] at ht₁; exact ht₁
    cases r with
    | some c' =>
      refine ⟨t₁, ?_⟩
      simp only [strategyB, hI]
      exact hst'
    | none =>
      obtain ⟨t₂, ht₂⟩ := ih (seg :: pathInfo) st'
      refine ⟨t₁ ++ t₂, ?_⟩
      simp only [strategyB, hI]
      rw [ht₂, hst', List.append_assoc]

/-- `strategyA_go` on a non-empty suffix list: the log starts with the
first load's execution events. -/
theorem strategyA_go_execs_cons (env : Env) (base sfx : String)
    (rest : List String) (st : Loads) :
    ∃ t, (strategyA_go env st base (sfx :: rest)).2.execs =
      (st.execs ++ (load_python_module env st.cache (base ++ sfx)).execd.toList) ++ t := by
  cases hL : lookupNs (load_python_module env st.cache (base ++ sfx)).ns
      "handle_request" with
  | none =>
    obtain ⟨t, ht⟩ := strategyA_go_execs env base rest
      ⟨(load_python_module env st.cache (base ++ sfx)).cache,
       st.attempts ++ [(load_python_module env st.cache (base ++ sfx)).attempted],
       st.execs ++ (load_python_module env st.cache (base ++ sfx)).execd.toList⟩
    refine ⟨t, ?_⟩
    simp only [strategyA_go, doLoad, hL]
    exact ht
  | some h =>
    by_cases ha : arg_count h = 1
    · refine ⟨[], ?_⟩
      simp only [strategyA_go, doLoad, hL]
      rw [if_pos ha]
      simp
    · obtain ⟨t, ht⟩ := strategyA_go_execs env base rest
        ⟨(load_python_module env st.cache (base ++ sfx)).cache,
         st.attempts ++ [(load_python_module env st.cache (base ++ sfx)).attempted],
         st.execs ++ (load_python_module env st.cache (base ++ sfx)).execd.toList⟩
      refine ⟨t, ?_⟩
      simp only [strategyA_go, doLoad, hL]
      rw [if_neg ha]
      exact ht

/-- The execution log of `handle_python` starts with whatever the very
first module load (full path, empty suffix) executed. -/
theorem handle_python_execs (env : Env) (c : Cache) (p : String) :
    ∃ t, (handle_python env c p).2.execs =
      (load_python_module env c (stripSlashes p ++ "")).execd.toList ++ t := by
  obtain ⟨t₁, ht₁⟩ :=
    strategyA_go_execs_cons env (stripSlashes p) "" ["/index"] ⟨c, [], []⟩
  rcases hA : strategyA_go env ⟨c, [], []⟩ (stripSlashes p) ["", "/index"]
    with ⟨r, st1⟩
  have hst1 : st1.execs =
      (load_python_module env c (stripSlashes p ++ "")).execd.toList ++ t₁ := by
    rw [hA] at ht₁
    simpa using ht₁
  cases r with
  | some c' =>
    refine ⟨t₁, ?_⟩
    simp only [handle_python, hA]
    exact hst1
  | none =>
    obtain ⟨t₂, ht₂⟩ := strategyB_execs env ((cleanParts p).reverse) [] st1
    rcases hB : strategyB env st1 ((cleanParts p).reverse) [] with ⟨r2, st2⟩
    have hst2 : st2.execs = st1.execs ++ t₂ := by rw [hB] at ht₂; exact ht₂
    cases r2 with
    | some c' =>
      refine ⟨t₁ ++ t₂, ?_⟩
      simp only [handle_python, hA, hB]
      rw [hst2, hst1, List.append_assoc]
    | none =>
      refine ⟨t₁ ++ t₂, ?_⟩
      simp only [handle_python, hA, hB]
      rw [hst2, hst1, List.append_assoc]

/-- `load_python_module` always checks exactly the filename built from the
site root and the cleaned parts of the module name. -/
theorem load_attempted (env : Env) (c : Cache) (name : String) :
    (load_python_module env c name).attempted = moduleFilename env.root name := by
  by_cases hf : env.isFile (moduleFilename env.root name) = true
  · cases hc : c (moduleFilename env.root name) with
    | none => rw [load_eq_reload_none env c name hf hc]; rfl
    | some p =>
      obtain ⟨m, t⟩ := p
      by_cases hm : env.mtime (moduleFilename env.root name) = t
      · rw [load_eq_hit env c name m t hf hc hm]
      · rw [load_eq_reload_stale env c name m t hf hc hm]; rfl
  · rw [load_eq_of_not_file env c name (by simpa using hf)]

/-! ### Concrete environments (used for witnesses and counterexamples) -/

/-- The everywhere-empty module cache of a fresh `Site`. -/
def emptyCache : Cache := fun _ => none

/-- A site whose only module file is `index.py` at the root, defining a
two-parameter `handle_request` — the situation of the docstring example at
site.py lines 87-89. -/
def indexOnlyEnv : Env where
  root := "r"
  isFile := fun f => f == "r/index.py"
  isDir := fun _ => false
  listdir := fun _ => []
  mtime := fun _ => 7
  exec := fun _ _ => [("handle_request", PyVal.fn 2 0)]
  engines := []
  invoke := fun _ => .ok (.fromHandler 0)
  render := fun _ _ => .error .notFound
  guessType := fun _ => none

/-- The directory structure of the doctest at site.py lines 163-186. -/
def docEnv : Env where
  root := "r"
  isFile := fun _ => false
  isDir := fun d => d == "r" || d == "r/hello" || d == "r/lorem"
  listdir := fun d =>
    if d == "r" then ["index.html.genshi", "hello.html.jinja2", "hello", "lorem"]
    else if d == "r/hello" then ["index.genshi", "index.html", "index.html.foo"]
    else if d == "r/lorem" then ["index.txt.jinja2"]
    else []
  mtime := fun _ => 0
  exec := fun _ _ => []
  engines := ["genshi", "jinja2"]
  invoke := fun _ => .ok (.fromHandler 0)
  render := fun _ _ => .ok 0
  guessType := fun _ => none

/-- A site whose only module file is `foo/bar.py`, defining a one-parameter
`handle_request`. -/
def fooBarEnv : Env where
  root := "r"
  isFile := fun f => f == "r/foo/bar.py"
  isDir := fun _ => false
  listdir := fun _ => []
  mtime := fun _ => 3
  exec := fun _ _ => [("handle_request", PyVal.fn 1 0)]
  engines := []
  invoke := fun _ => .ok (.fromHandler 0)
  render := fun _ _ => .error .notFound
  guessType := fun _ => none

/-- A site whose only module file is `foo.py`, defining a two-parameter
`handle_request`. -/
def fooOnlyEnv : Env where
  root := "r"
  isFile := fun f => f == "r/foo.py"
  isDir := fun _ => false
  listdir := fun _ => []
  mtime := fun _ => 3
  exec := fun _ _ => [("handle_request", PyVal.fn 2 0)]
  engines := []
  invoke := fun _ => .ok (.fromHandler 0)
  render := fun _ _ => .error .notFound
  guessType := fun _ => none

/-- A site root `r` with a sibling file `r.py` next to it (outside the
root directory), plus a static file `r/a/b`. -/
def rootPyEnv : Env where
  root := "r"
  isFile := fun f => f == "r.py" || f == "r/a/b"
  isDir := fun _ => false
  listdir := fun _ => []
  mtime := fun _ => 11
  exec := fun _ _ => [("x", PyVal.str "sideEffect")]
  engines := []
  invoke := fun _ => .ok (.fromHandler 0)
  render := fun _ _ => .error .notFound
  guessType := fun _ => none

/-- A site with module files `m.py` and `n.py`; used to exercise the cache. -/
def cacheEnv : Env where
  root := "r"
  isFile := fun f => f == "r/m.py" || f == "r/n.py"
  isDir := fun _ => false
  listdir := fun _ => []
  mtime := fun _ => 5
  exec := fun f _ => [("src", PyVal.str f)]
  engines := []
  invoke := fun _ => .ok (.fromHandler 0)
  render := fun _ _ => .error .notFound
  guessType := fun _ => none

/-- A cache holding `r/m.py` at the current mtime (hit) and nothing else. -/
def cacheWithM : Cache :=
  fun k => if k = "r/m.py" then some ([("src", PyVal.str "cached")], 5) else none

/-! ### Claim theorems -/

/-- C2: every path segment equal to `..` (and every empty segment) is
dropped by the shared cleaning step before any filesystem path is built,
in all three resolvers: the static filename, the module filename checked
by `load_python_module`, and the template search directories are all built
from `cleanParts`, which never contains `..`. -/
theorem c2_dotdot_stripped (env : Env) (c : Cache) (path name : String) :
    ".." ∉ cleanParts path
    ∧ ".." ∉ (cleanParts path).dropLast
    ∧ (load_python_module env c name).attempted =
        pathJoin env.root (cleanParts name) ++ ".py"
    ∧ (∀ f, handle_static_file env path = .ok (.staticFile f) →
        f = pathJoin env.root (cleanParts path)) := by
  have h1 : ∀ s : String, ".." ∉ cleanParts s := by
    intro s hs
    simp [cleanParts, List.mem_filter] at hs
  refine ⟨h1 path, fun hd => h1 path (List.dropLast_subset _ hd), ?_, ?_⟩
  · exact load_attempted env c name
  · intro f hf
    simp only [handle_static_file] at hf
    split at hf
    · simpa using hf.symm
    · exact absurd hf (by simp)

/-- C2 witness: a concrete path with a `..` segment, served statically. -/
theorem c2_dotdot_stripped_witness :
    ".." ∉ cleanParts "/a/../b"
    ∧ "r/a/b" = pathJoin rootPyEnv.root (cleanParts "/a/../b") :=
  ⟨(c2_dotdot_stripped rootPyEnv emptyCache "/a/../b" "m").1,
   (c2_dotdot_stripped rootPyEnv emptyCache "/a/../b" "m").2.2.2 "r/a/b" rfl⟩

/-- C8: a module name whose resolved source file does not exist yields an
empty symbol table (no exception, cache untouched, nothing executed), so
neither dispatch strategy can find `handle_request` in it. -/
theorem c8_missing_module_empty (env : Env) (c : Cache) (name : String)
    (h : env.isFile (moduleFilename env.root name) = false) :
    (load_python_module env c name).ns = []
    ∧ (load_python_module env c name).cache = c
    ∧ (load_python_module env c name).execd = none
    ∧ lookupNs (load_python_module env c name).ns "handle_request" = none := by
  rw [load_eq_of_not_file env c name h]
  exact ⟨rfl, rfl, rfl, rfl⟩

/-- C8 witness: loading the absent module `zz` of `indexOnlyEnv`. -/
theorem c8_missing_module_empty_witness :
    (load_python_module indexOnlyEnv emptyCache "zz").ns = []
    ∧ (load_python_module indexOnlyEnv emptyCache "zz").cache = emptyCache
    ∧ (load_python_module indexOnlyEnv emptyCache "zz").execd = none
    ∧ lookupNs (load_python_module indexOnlyEnv emptyCache "zz").ns
        "handle_request" = none :=
  c8_missing_module_empty indexOnlyEnv emptyCache "zz" rfl

/-- C5: the module cache of `load_python_module`.  A hit (entry present,
stored mtime equal to the current one) returns the cached symbol table
with no execution and no cache change; a miss or stale entry executes the
file in a fresh namespace seeded with the qualified name derived from the
module's path segments, stores (namespace, mtime) wholesale under the
absolute path, and returns that namespace. -/
theorem c5_module_cache (env : Env) (c : Cache) (name : String) :
    (∀ m t, env.isFile (moduleFilename env.root name) = true →
        c (moduleFilename env.root name) = some (m, t) →
        env.mtime (moduleFilename env.root name) = t →
        (load_python_module env c name).ns = m
        ∧ (load_python_module env c name).cache = c
        ∧ (load_python_module env c name).execd = none)
    ∧ (env.isFile (moduleFilename env.root name) = true →
        (c (moduleFilename env.root name) = none ∨
          ∃ m t, c (moduleFilename env.root name) = some (m, t)
            ∧ env.mtime (moduleFilename env.root name) ≠ t) →
        (load_python_module env c name).execd =
          some (moduleFilename env.root name,
            [("__name__", PyVal.str (module_qualname (cleanParts name)))])
        ∧ (load_python_module env c name).ns =
            env.exec (moduleFilename env.root name)
              [("__name__", PyVal.str (module_qualname (cleanParts name)))]
        ∧ (load_python_module env c name).cache (moduleFilename env.root name) =
            some ((load_python_module env c name).ns,
              env.mtime (moduleFilename env.root name))
        ∧ ∀ k, k ≠ moduleFilename env.root name →
            (load_python_module env c name).cache k = c k) := by
  constructor
  · intro m t hf hc hm
    rw [load_eq_hit env c name m t hf hc hm]
    exact ⟨rfl, rfl, rfl⟩
  · intro hf hmiss
    have hre : load_python_module env c name =
        reload_module env c (moduleFilename env.root name) (cleanParts name) := by
      rcases hmiss with hnone | ⟨m, t, hc, hm⟩
      · exact load_eq_reload_none env c name hf hnone
      · exact load_eq_reload_stale env c name m t hf hc hm
    rw [hre]
    refine ⟨rfl, rfl, ?_, ?_⟩
    · simp [reload_module]
    · intro k hk
      simp [reload_module, hk]

/-- C5 witness: a hit on `m.py` returns the cached table unchanged and
executes nothing; a miss on `n.py` executes the file in a namespace seeded
with `kraken.site.n`. -/
theorem c5_module_cache_witness :
    ((load_python_module cacheEnv cacheWithM "m").ns = [("src", PyVal.str "cached")]
      ∧ (load_python_module cacheEnv cacheWithM "m").cache = cacheWithM
      ∧ (load_python_module cacheEnv cacheWithM "m").execd = none)
    ∧ (load_python_module cacheEnv cacheWithM "n").execd =
        some ("r/n.py", [("__name__", PyVal.str "kraken.site.n")]) :=
  ⟨(c5_module_cache cacheEnv cacheWithM "m").1 [("src", PyVal.str "cached")] 5
      rfl rfl rfl,
   ((c5_module_cache cacheEnv cacheWithM "n").2 rfl (Or.inl rfl)).1⟩

/-- C7: when the first template search (all segments as the directory,
basename `index`) finds nothing and the path has at least one segment,
`find_template` returns exactly the result of the second search: directory
from all segments but the last, basename equal to the last segment
followed by `.<type>.<engine>`.  On the doctest site, `/hello/` resolves
to the sibling file `hello.html.jinja2`. -/
theorem c7_template_fallback (env : Env) (path : String)
    (hne : cleanParts path ≠ [])
    (h1 : search_dir env (cleanParts path) "index" = none) :
    find_template env path =
      search_dir env ((cleanParts path).dropLast) ((cleanParts path).getLastD "")
    ∧ find_template docEnv "/hello/" = some ("hello.html.jinja2", "html", "jinja2")
    ∧ search_dir docEnv (cleanParts "/hello/") "index" = none := by
  refine ⟨?_, rfl, rfl⟩
  simp only [find_template, h1]
  rw [if_neg (by simpa using hne)]

/-- C7 witness: the fallback search on the doctest site. -/
theorem c7_template_fallback_witness :
    find_template docEnv "/hello/" =
      search_dir docEnv ((cleanParts "/hello/").dropLast)
        ((cleanParts "/hello/").getLastD "")
    ∧ find_template docEnv "/hello/" = some ("hello.html.jinja2", "html", "jinja2") :=
  ⟨(c7_template_fallback docEnv "/hello/" (by decide) rfl).1,
   (c7_template_fallback docEnv "/hello/" (by decide) rfl).2.1⟩

/-- C9: the static branch is chosen by a plain substring test for `/__`
anywhere in the path — when it holds, the static resolver is the only one
that runs; and it does hold for `/foo/__bar/baz`, whose segments merely
start with two underscores. -/
theorem c9_marker_substring (env : Env) (c : Cache) (p : String) :
    (Resolver.static ∈ (call_body env c p).2.2 ↔ pyContains "/__" p = true)
    ∧ (pyContains "/__" p = true →
        call_body env c p = (handle_static_file env p, ⟨c, [], []⟩, [.static]))
    ∧ pyContains "/__" "/foo/__bar/baz" = true := by
  refine ⟨?_, ?_, by decide⟩
  · by_cases h : pyContains "/__" p
    · simp [call_body, h]
    · rcases hP : handle_python env c p with ⟨r0, st0⟩
      cases hT : handle_simple_template env p with
      | ok r => simp [call_body, h, hT]
      | error e =>
        cases e with
        | notFound => simp [call_body, h, hT, hP]
        | other code => simp [call_body, h, hT]
  · intro h
    simp [call_body, h]

/-- C9 witness: `/foo/__bar/baz` goes to the static resolver alone. -/
theorem c9_marker_substring_witness :
    call_body indexOnlyEnv emptyCache "/foo/__bar/baz" =
      (handle_static_file indexOnlyEnv "/foo/__bar/baz",
       ⟨emptyCache, [], []⟩, [.static])
    ∧ Resolver.static ∈ (call_body indexOnlyEnv emptyCache "/foo/__bar/baz").2.2 :=
  ⟨(c9_marker_substring indexOnlyEnv emptyCache "/foo/__bar/baz").2.1 (by decide),
   (c9_marker_substring indexOnlyEnv emptyCache "/foo/__bar/baz").1.mpr (by decide)⟩

/-- C6: the dispatch order of `Site.__call__`.  A path containing the
reserved marker goes to the static resolver alone; otherwise the template
resolver runs first and the module resolver runs exactly when the template
resolver signals `NotFound`; any HTTP exception escaping the body is
caught at the boundary and returned as the response. -/
theorem c6_dispatch_order (env : Env) (c : Cache) (p : String) :
    (pyContains "/__" p = true →
        call_body env c p = (handle_static_file env p, ⟨c, [], []⟩, [.static]))
    ∧ (pyContains "/__" p = false →
        ((call_body env c p).2.2.head? = some .template
        ∧ (Resolver.python ∈ (call_body env c p).2.2 ↔
            handle_simple_template env p = .error .notFound)
        ∧ ∀ r, handle_simple_template env p = .ok r →
            (call_body env c p).1 = .ok r))
    ∧ (∀ e, (call_body env c p).1 = .error e → (site_call env c p).resp = .exc e)
    ∧ (∀ r, (call_body env c p).1 = .ok r → (site_call env c p).resp = r) := by
  refine ⟨?_, ?_, ?_, ?_⟩
  · intro h
    simp [call_body, h]
  · intro h
    have h' : ¬ pyContains "/__" p = true := by simp [h]
    rcases hP : handle_python env c p with ⟨r0, st0⟩
    cases hT : handle_simple_template env p with
    | ok r =>
      refine ⟨by simp [call_body, h', hT], by simp [call_body, h', hT], ?_⟩
      intro r' hr'
      injection hr' with hrr
      subst hrr
      simp [call_body, h', hT]
    | error e =>
      cases e with
      | notFound =>
        refine ⟨by simp [call_body, h', hT, hP], by simp [call_body, h', hT, hP], ?_⟩
        intro r' hr'
        exact absurd hr' (by simp)
      | other code =>
        refine ⟨by simp [call_body, h', hT], by simp [call_body, h', hT], ?_⟩
        intro r' hr'
        exact absurd hr' (by simp)
  · intro e he
    rcases hcb : call_body env c p with ⟨res, st, tr⟩
    rw [hcb] at he
    simp only [] at he
    subst he
    simp [site_call, hcb]
  · intro r hr
    rcases hcb : call_body env c p with ⟨res, st, tr⟩
    rw [hcb] at hr
    simp only [] at hr
    subst hr
    simp [site_call, hcb]

/-- C6 witness: a marker path served statically, and a NotFound escaping
the resolvers returned as the response. -/
theorem c6_dispatch_order_witness :
    call_body indexOnlyEnv emptyCache "/__s" =
      (handle_static_file indexOnlyEnv "/__s", ⟨emptyCache, [], []⟩, [.static])
    ∧ (site_call indexOnlyEnv emptyCache "/a").resp = .exc .notFound :=
  ⟨(c6_dispatch_order indexOnlyEnv emptyCache "/__s").1 (by decide),
   (c6_dispatch_order indexOnlyEnv emptyCache "/a").2.2.1 .notFound rfl⟩

/-- When the exact-path strategy decides a call, `handle_python` returns
exactly its result. -/
theorem handle_python_of_A (env : Env) (c : Cache) (path : String)
    (c' : Call) (st : Loads)
    (hA : strategyA_go env ⟨c, [], []⟩ (stripSlashes path) ["", "/index"] =
      (some c', st)) :
    handle_python env c path = (.ok c', st) := by
  simp only [handle_python, hA]

/-- C1: evidence for the missing empty prefix.  On a site whose only
module file is `index.py` with a two-parameter `handle_request` (exactly
the situation of the docstring example, site.py lines 87-89, which
promises `handle_request(request, u'foo/bar')` in `index.py`),
`handle_python` on `/foo/bar` raises `NotFound`, never checks
`r/index.py`, and executes nothing — the `while script_name:` loop ends
before the prefix becomes empty. -/
theorem c1_empty_prefix_skipped :
    indexOnlyEnv.isFile "r/index.py" = true
    ∧ (load_python_module indexOnlyEnv emptyCache "/index").ns =
        [("handle_request", PyVal.fn 2 0)]
    ∧ arg_count (PyVal.fn 2 0) > 1
    ∧ (handle_python indexOnlyEnv emptyCache "/foo/bar").1 = .error .notFound
    ∧ "r/index.py" ∉ (handle_python indexOnlyEnv emptyCache "/foo/bar").2.attempts
    ∧ (handle_python indexOnlyEnv emptyCache "/foo/bar").2.execs = [] := by
  exact ⟨rfl, rfl, by decide, rfl, by decide, rfl⟩

/-- C3: if the module named by the full request path (suffix `""` or
`"/index"`) defines `handle_request` with declared parameter count exactly
one, `handle_python` returns a one-argument invocation decided entirely by
the exact-path strategy — the prefix-shrinking strategy contributes
nothing to the result, the cache or the load log. -/
theorem c3_exact_handler_precedence (env : Env) (c : Cache) (path : String)
    (h : (∃ h₁, lookupNs (load_python_module env c (stripSlashes path ++ "")).ns
            "handle_request" = some h₁ ∧ arg_count h₁ = 1)
        ∨ (∃ h₂, lookupNs (load_python_module env
              (load_python_module env c (stripSlashes path ++ "")).cache
              (stripSlashes path ++ "/index")).ns "handle_request" = some h₂
            ∧ arg_count h₂ = 1)) :
    ∃ hh st, arg_count hh = 1
      ∧ strategyA_go env ⟨c, [], []⟩ (stripSlashes path) ["", "/index"] =
          (some (.call1 hh), st)
      ∧ handle_python env c path = (.ok (.call1 hh), st) := by
  have pack : ∀ hh, arg_count hh = 1 →
      (strategyA_go env ⟨c, [], []⟩ (stripSlashes path) ["", "/index"]).1 =
        some (.call1 hh) →
      ∃ hh st, arg_count hh = 1
        ∧ strategyA_go env ⟨c, [], []⟩ (stripSlashes path) ["", "/index"] =
            (some (.call1 hh), st)
        ∧ handle_python env c path = (.ok (.call1 hh), st) := by
    intro hh ha hfst
    have hA : strategyA_go env ⟨c, [], []⟩ (stripSlashes path) ["", "/index"] =
        (some (.call1 hh),
         (strategyA_go env ⟨c, [], []⟩ (stripSlashes path) ["", "/index"]).2) := by
      rw [← hfst]
    exact ⟨hh, _, ha, hA, handle_python_of_A env c path _ _ hA⟩
  cases hL1 : lookupNs (load_python_module env c (stripSlashes path ++ "")).ns
      "handle_request" with
  | some h₁ =>
    by_cases ha1 : arg_count h₁ = 1
    · refine pack h₁ ha1 ?_
      simp only [strategyA_go, doLoad, hL1]
      rw [if_pos ha1]
    · rcases h with ⟨h₁', hl1', ha1'⟩ | ⟨h₂, hl2, ha2⟩
      · rw [hL1] at hl1'
        injection hl1' with hx
        subst hx
        exact absurd ha1' ha1
      · refine pack h₂ ha2 ?_
        simp only [strategyA_go, doLoad, hL1]
        rw [if_neg ha1]
        simp only [strategyA_go, doLoad, hl2]
        rw [if_pos ha2]
  | none =>
    rcases h with ⟨h₁', hl1', ha1'⟩ | ⟨h₂, hl2, ha2⟩
    · rw [hL1] at hl1'
      exact absurd hl1' (by simp)
    · refine pack h₂ ha2 ?_
      simp only [strategyA_go, doLoad, hL1, hl2]
      rw [if_pos ha2]

/-- C3 witness: `foo/bar.py` defines a one-parameter handler; the call is
`handler(request)` and the state is the exact-path strategy's own. -/
theorem c3_exact_handler_precedence_witness :
    ∃ hh st, arg_count hh = 1
      ∧ strategyA_go fooBarEnv ⟨emptyCache, [], []⟩ (stripSlashes "/foo/bar")
          ["", "/index"] = (some (.call1 hh), st)
      ∧ handle_python fooBarEnv emptyCache "/foo/bar" = (.ok (.call1 hh), st) :=
  c3_exact_handler_precedence fooBarEnv emptyCache "/foo/bar"
    (Or.inl ⟨PyVal.fn 1 0, rfl, rfl⟩)

/-- C4: for `/foo/bar`, when neither `foo/bar` nor `foo/bar/index` defines
the entry point but the module `foo` defines it with more than one
declared parameter, `handle_python` invokes it with remainder `"bar"`
(the right-most segment popped onto the left of the remainder). -/
theorem c4_remainder_dispatch (env : Env) (c : Cache) (hf : PyVal)
    (h1 : lookupNs (load_python_module env c "foo/bar").ns "handle_request" = none)
    (h2 : lookupNs (load_python_module env
        (load_python_module env c "foo/bar").cache "foo/bar/index").ns
        "handle_request" = none)
    (h3 : lookupNs (load_python_module env
        (load_python_module env
          (load_python_module env c "foo/bar").cache "foo/bar/index").cache
        "foo").ns "handle_request" = some hf)
    (h4 : arg_count hf > 1) :
    (handle_python env c "/foo/bar").1 = .ok (.call2 hf "bar") := by
  have e1 : stripSlashes "/foo/bar" = "foo/bar" := rfl
  have e2 : (cleanParts "/foo/bar").reverse = ["bar", "foo"] := rfl
  have e3 : "foo/bar" ++ "" = "foo/bar" := rfl
  have e4 : "foo/bar" ++ "/index" = "foo/bar/index" := rfl
  have e5 : ("bar" :: ["foo"]).reverse = ["foo", "bar"] := rfl
  have e6 : ("foo" :: ([] : List String)).reverse = ["foo"] := rfl
  have e7 : joinWith "/" ["foo", "bar"] ++ "" = "foo/bar" := rfl
  have e8 : joinWith "/" ["foo", "bar"] ++ "/index" = "foo/bar/index" := rfl
  have e9 : joinWith "/" ["foo"] ++ "" = "foo" := rfl
  have e10 : joinWith "/" ["bar"] = "bar" := rfl
  have hne : moduleFilename env.root "foo/bar" ≠
      moduleFilename env.root "foo/bar/index" :=
    moduleFilename_ne env.root "foo/bar" "foo/bar/index" (by decide)
  -- loading `foo/bar` again after the two strategy-A loads is a no-op
  have hs1 : load_python_module env
      (load_python_module env
        (load_python_module env c "foo/bar").cache "foo/bar/index").cache
      "foo/bar" =
      ⟨(load_python_module env c "foo/bar").ns,
       (load_python_module env
         (load_python_module env c "foo/bar").cache "foo/bar/index").cache,
       moduleFilename env.root "foo/bar", none⟩ :=
    load_stable env c _ "foo/bar"
      (load_cache_other env (load_python_module env c "foo/bar").cache
        "foo/bar/index" (moduleFilename env.root "foo/bar") hne)
  -- and so is loading `foo/bar/index` again
  have hs2 : load_python_module env
      (load_python_module env
        (load_python_module env c "foo/bar").cache "foo/bar/index").cache
      "foo/bar/index" =
      ⟨(load_python_module env
          (load_python_module env c "foo/bar").cache "foo/bar/index").ns,
       (load_python_module env
         (load_python_module env c "foo/bar").cache "foo/bar/index").cache,
       moduleFilename env.root "foo/bar/index", none⟩ :=
    load_stable env (load_python_module env c "foo/bar").cache _ "foo/bar/index" rfl
  simp only [handle_python, e1, e2, strategyA_go, doLoad, e3, e4, h1, h2,
    strategyB, e5, e6, strategyB_inner, e7, e8, e9, e10, hs1, hs2, h3]
  rw [if_pos h4]

/-- C4 witness: only `foo.py` exists, defining a two-parameter handler;
the request `/foo/bar` is dispatched as `handler(request, u'bar')`. -/
theorem c4_remainder_dispatch_witness :
    (handle_python fooOnlyEnv emptyCache "/foo/bar").1 =
      .ok (.call2 (PyVal.fn 2 0) "bar") :=
  c4_remainder_dispatch fooOnlyEnv emptyCache (PyVal.fn 2 0) rfl rfl rfl (by decide)

/-- C10: a path whose cleaned segment list is empty (`/`, `//`, `/../..`)
makes the exact-path strategy build the module name `""` (resp. `"../.."`),
which `load_python_module` resolves to `<site_root>.py` — a sibling of the
site root, outside it — and, with a fresh cache, that file is executed
first whenever it exists. -/
theorem c10_root_sibling_module (env : Env)
    (h : env.isFile (env.root ++ ".py") = true) :
    stripSlashes "/" = "" ∧ stripSlashes "//" = ""
    ∧ stripSlashes "/../.." = "../.."
    ∧ cleanParts "" = [] ∧ cleanParts "../.." = []
    ∧ moduleFilename env.root "" = env.root ++ ".py"
    ∧ moduleFilename env.root "../.." = env.root ++ ".py"
    ∧ (∀ p ∈ (["/", "//", "/../.."] : List String),
        ((handle_python env emptyCache p).2.execs).head? =
          some (env.root ++ ".py", [("__name__", PyVal.str "kraken.site.")])) := by
  refine ⟨rfl, rfl, rfl, rfl, rfl, rfl, rfl, ?_⟩
  have main : ∀ p : String, cleanParts (stripSlashes p) = [] →
      ((handle_python env emptyCache p).2.execs).head? =
        some (env.root ++ ".py", [("__name__", PyVal.str "kraken.site.")]) := by
    intro p hp
    obtain ⟨t, ht⟩ := handle_python_execs env emptyCache p
    rw [ht]
    have happ : stripSlashes p ++ "" = stripSlashes p := String.append_empty _
    have hcp : cleanParts (stripSlashes p ++ "") = [] := by rw [happ]; exact hp
    have hfn : moduleFilename env.root (stripSlashes p ++ "") = env.root ++ ".py" := by
      simp [moduleFilename, hp, pathJoin]
    have hload : load_python_module env emptyCache (stripSlashes p ++ "") =
        reload_module env emptyCache
          (moduleFilename env.root (stripSlashes p ++ ""))
          (cleanParts (stripSlashes p ++ "")) :=
      load_eq_reload_none env emptyCache (stripSlashes p ++ "")
        (by rw [hfn]; exact h) rfl
    rw [hload, hcp, hfn]
    simp [reload_module, module_qualname, joinWith]
  intro p hp
  simp only [List.mem_cons, List.not_mem_nil, or_false] at hp
  rcases hp with rfl | rfl | rfl
  · exact main "/" rfl
  · exact main "//" rfl
  · exact main "/../.." rfl

/-- C10 witness: with `r.py` existing beside the site root `r`, the
request `/` executes `r.py`. -/
theorem c10_root_sibling_module_witness :
    ((handle_python rootPyEnv emptyCache "/").2.execs).head? =
      some (rootPyEnv.root ++ ".py", [("__name__", PyVal.str "kraken.site.")]) :=
  (c10_root_sibling_module rootPyEnv rfl).2.2.2.2.2.2.2 "/" (by decide)

end Kraken
